import Mathlib

/-!
Shallow embedding of the canvas-data-loader import pipeline.

Each definition below is translated from a single function of the Rust
source (`src/main.rs`, `src/importer.rs`, `src/db_client.rs`,
`src/api_client.rs`, `src/type_converter.rs`, `src/errors.rs`,
`src/settings.rs`).  Rust strings are modelled as Lean `String`
(table-name index arithmetic, which Rust performs on bytes, is modelled
on `List Char`; all table and column names involved are ASCII, where the
two coincide).  `BTreeMap` is modelled as an association list kept sorted
by key via ordered insertion, which reproduces its iteration order.
Fallible Rust code returns `Except`/`Option`; a Rust panic (`unwrap` of
`None`, out-of-bounds indexing) is modelled as a dedicated `none` layer
or constructor, documented at each definition.
-/

namespace CanvasDataLoader

/-- From `settings.rs`: the `DatabaseType` enum (`Psql` | `Mysql`). -/
inductive DatabaseType where
  | Psql
  | Mysql
deriving DecidableEq, Repr

/-- From `errors.rs`: the `error_chain!` kinds used by the loader. -/
inductive ErrorKind where
  | InvalidTypeToConvert (the_type : String)
  | PostgresErr
  | MysqlErr
  | ImportErr
deriving DecidableEq, Repr

/-- From `type_converter.rs`, `convert_type_for_db`: maps a vendor type
string to the SQL type name for the given backend.  The Rust `match` on
`orig_type.as_str()` is an equality chain; the fallback arm returns
`ErrorKind::InvalidTypeToConvert(orig_type)`. -/
def convert_type_for_db (orig_type : String) (db_type : DatabaseType) :
    Except ErrorKind String :=
  if orig_type = "bigint" then .ok "BIGINT"
  else if orig_type = "boolean" then
    match db_type with
    | .Psql => .ok "BOOLEAN"
    | .Mysql => .ok "VARCHAR(10)"
  else if orig_type = "double precision" then
    match db_type with
    | .Psql => .ok "double precision"
    | .Mysql => .ok "FLOAT(17)"
  else if orig_type = "enum" then .ok "TEXT"
  else if orig_type = "int" then .ok "INT"
  else if orig_type = "integer" then .ok "INT"
  else if orig_type = "text" then
    match db_type with
    | .Psql => .ok "TEXT"
    | .Mysql => .ok "LONGTEXT"
  else if orig_type = "timestamp" then
    match db_type with
    | .Psql => .ok "TIMESTAMP"
    | .Mysql => .ok "DATETIME"
  else if orig_type = "date" then .ok "DATE"
  else if orig_type = "varchar" then
    match db_type with
    | .Psql => .ok "TEXT"
    | .Mysql => .ok "LONGTEXT"
  else if orig_type = "guid" then
    match db_type with
    | .Psql => .ok "TEXT"
    | .Mysql => .ok "LONGTEXT"
  else if orig_type = "datetime" then
    match db_type with
    | .Psql => .ok "TIMESTAMP"
    | .Mysql => .ok "DATETIME"
  else .error (.InvalidTypeToConvert orig_type)

/-- The vendor type strings recognised by `convert_type_for_db` (the
non-fallback arms of its `match`). -/
def recognizedVendorTypes : List String :=
  ["bigint", "boolean", "double precision", "enum", "int", "integer",
   "text", "timestamp", "date", "varchar", "guid", "datetime"]

/-- Lexicographic order on character lists by code point, modelling the
`Ord` instance Rust's `BTreeMap<String, _>` sorts by (byte-lexicographic;
identical to code-point order on the ASCII names this program handles). -/
def charListLt : List Char → List Char → Bool
  | [], [] => false
  | [], _ :: _ => true
  | _ :: _, [] => false
  | a :: as, b :: bs =>
    if a.toNat < b.toNat then true
    else if b.toNat < a.toNat then false
    else charListLt as bs

/-- The string order used by the `BTreeMap` model. -/
def strLt (a b : String) : Bool :=
  charListLt a.data b.data

/-- Model of Rust's `BTreeMap<String, A>`: an association list kept
sorted by key.  `mapInsert` places the new binding at its ordered
position, replacing an existing binding for an equal key; iterating the
resulting list reproduces `BTreeMap` iteration order (ascending keys). -/
def mapInsert {A : Type} (k : String) (v : A) :
    List (String × A) → List (String × A)
  | [] => [(k, v)]
  | (k1, v1) :: rest =>
    if strLt k k1 then (k, v) :: (k1, v1) :: rest
    else if k = k1 then (k, v) :: rest
    else (k1, v1) :: mapInsert k v rest

/-- Model of `BTreeMap::get`: the value bound to `k`, if any. -/
def mapLookup {A : Type} (k : String) : List (String × A) → Option A
  | [] => none
  | (k1, v1) :: rest => if k = k1 then some v1 else mapLookup k rest

/-- The key list of a map model, in iteration order. -/
def mapKeys {A : Type} (m : List (String × A)) : List String :=
  m.map Prod.fst

/-- From `importer.rs`, `process` (load phase): a TSV field is turned
into `Some(field)` unless it is the literal `\N`, which becomes `None`. -/
def parseField (s : String) : Option String :=
  if s = "\\N" then none else some s

/-- From `importer.rs`, `process` (load phase, lines 316-327): for one
TSV line, build the `columns : BTreeMap<String, Option<String>>` by
inserting, for each schema column name at position `pos`, the field at
the same position of the tab-split line.  Rust indexes the split line by
`pos` and panics when the line has fewer fields than the schema has
columns; that panic is the outer `none`. -/
def buildRowMap (names vals : List String) :
    Option (List (String × Option String)) :=
  if names.length ≤ vals.length then
    some ((names.zip vals).foldl
      (fun m p => mapInsert p.1 (parseField p.2) m) [])
  else none

/-- From `db_client.rs`, `insert_record` (both backends): the column
names of the generated `INSERT INTO t (c1,c2,...) VALUES (...)` are
emitted by iterating `columns.keys()`, i.e. in the map's iteration
order; the values are emitted by iterating `columns.values()` of the
same map, so the i-th value belongs to the i-th emitted column. -/
def insertColumnOrder (m : List (String × Option String)) : List String :=
  mapKeys m

/-- From `db_client.rs`, `insert_record`: the value list of the
generated `INSERT`, aligned positionally with `insertColumnOrder`. -/
def insertValueOrder (m : List (String × Option String)) :
    List (Option String) :=
  m.map Prod.snd

/-- From `api_client.rs`: the fields of `ColumnDefinition` used by the
importer (`db_type` is the vendor type string, `name` the column name). -/
structure ColumnDefinition where
  db_type : String
  name : String
deriving DecidableEq, Repr

/-- From `api_client.rs`: the fields of `TableDefinition` used by the
importer: the table name and the ordered column list. -/
structure TableDefinition where
  table_name : String
  columns : List ColumnDefinition
deriving DecidableEq, Repr

/-- Loop body of `importer.rs`, `get_table_info_from_def`: walks the
ordered column list pushing each name onto `finalized_vec` and inserting
`(name, converted type)` into the `finalized_map` `BTreeMap`.  The Rust
`.expect("Failed to Convert Type for DB!")` on a conversion failure is a
panic, modelled as `none`. -/
def tableInfoAux (db : DatabaseType) :
    List ColumnDefinition → List String → List (String × String) →
    Option (List String × List (String × String))
  | [], vec, m => some (vec, m)
  | c :: rest, vec, m =>
    match convert_type_for_db c.db_type db with
    | .error _ => none
    | .ok t => tableInfoAux db rest (vec ++ [c.name]) (mapInsert c.name t m)

/-- From `importer.rs`, `get_table_info_from_def`: returns the pair
`(<ordered column names>, <column name, column type> map)`. -/
def get_table_info_from_def (db : DatabaseType) (td : TableDefinition) :
    Option (List String × List (String × String)) :=
  tableInfoAux db td.columns [] []

/-- From `importer.rs`: the `VOLATILE_TABLES` static — tables dropped
and rebuilt on each import. -/
def VOLATILE_TABLES : List String :=
  ["module_completion_requirement_fact",
   "module_fact",
   "module_item_fact",
   "module_prerequisite_fact",
   "module_progression_completion_requirement_fact",
   "module_progression_fact",
   "quiz_fact",
   "quiz_question_answer_fact",
   "quiz_question_fact",
   "quiz_question_group_fact",
   "quiz_submission_fact",
   "quiz_submission_historical_fact",
   "module_completion_requirement_dim",
   "module_dim",
   "module_item_dim",
   "module_prerequisite_dim",
   "module_progression_completion_requirement_dim",
   "module_progression_dim",
   "quiz_dim",
   "quiz_question_answer_dim",
   "quiz_question_dim",
   "quiz_question_group_dim",
   "quiz_submission_dim",
   "quiz_submission_historical_dim",
   "submission_comment_participant_dim",
   "requests",
   "assignment_override_user_rollup_fact",
   "enrollment_rollup_dim"]

/-- From `importer.rs`: the `FileNameSplit` struct — the four pieces of
a downloaded filename `<table>-<shard>-<hash>.<ext>`. -/
structure FileNameSplit where
  table_name : String
  sharded_part : String
  hash_part : String
  extension : String
deriving DecidableEq, Repr

/-- Model of Rust's `str::split(sep)` on a character list: the list of
(possibly empty) segments between occurrences of `sep`.  Splitting the
empty string yields one empty segment, as in Rust. -/
def splitOnChar (sep : Char) : List Char → List (List Char)
  | [] => [[]]
  | c :: rest =>
    match splitOnChar sep rest with
    | [] => if c = sep then [[], []] else [[c]]
    | h :: t => if c = sep then [] :: h :: t else (c :: h) :: t

/-- From `importer.rs`, `FileNameSplit::new`.  The outer `Option` layer
is a Rust panic: when the third dash-separated segment contains no dot,
`part_with_file_extension[1]` indexes out of bounds.  The inner layer is
the function's own `Option` result: `none` when the name has no dash or
does not split into exactly three segments.  Rust's `split` keeps the
first two dot-separated pieces of the third segment as hash and
extension and ignores any further pieces, as does this model. -/
def fileNameSplitNew (split_from : String) : Option (Option FileNameSplit) :=
  match splitOnChar '-' split_from.data with
  | [a, b, c] =>
    match splitOnChar '.' c with
    | h :: e :: _ =>
      some (some { table_name := String.mk a, sharded_part := String.mk b,
                   hash_part := String.mk h, extension := String.mk e })
    | _ => none
  | _ => some none

/-- Outcome of handling one globbed file entry in `process`
(`importer.rs` lines 213-216 and 244-245): both loops run
`FileNameSplit::new(file_name).unwrap()`, so a `None` split result is a
panic, as is a panic inside `FileNameSplit::new` itself. -/
inductive EntryOutcome where
  | panicked
  | proceeds (split : FileNameSplit)
deriving DecidableEq, Repr

/-- From `importer.rs`, `process`: filename handling for one entry of
the glob result, `FileNameSplit::new(file_name).unwrap()`. -/
def processEntrySplit (file_name : String) : EntryOutcome :=
  match fileNameSplitNew file_name with
  | none => .panicked
  | some none => .panicked
  | some (some sp) => .proceeds sp

/-- Shape check corresponding to the spec's description of ignorable
filenames: exactly three dash-separated segments whose third contains a
dot. -/
def wellFormedDumpFileName (s : String) : Bool :=
  match splitOnChar '-' s.data with
  | [_, _, c] =>
    match splitOnChar '.' c with
    | _ :: _ :: _ => true
    | _ => false
  | _ => false

/-- From `importer.rs`, `process` (drop phase, lines 206-228): iterates
the globbed entries in order and, for each entry whose parsed table name
is in `VOLATILE_TABLES` — or unconditionally when `is_all_volatile` —
invokes `drop_table(table_name)`.  No record of already-dropped tables
is kept.  This model takes the parsed table names of the entries and
returns the sequence of `drop_table` arguments, for a run in which every
drop succeeds (a failed drop sets `has_failed` and skips the rest). -/
def dropPhaseDrops (is_all_volatile : Bool) (tables : List String) :
    List String :=
  tables.filter (fun t => VOLATILE_TABLES.contains t || is_all_volatile)

/-- From `importer.rs`, `get_id_like_column_from_columns`: the Rust
`table_name.rfind("_")` — the index of the last underscore, if any
(byte index in Rust; identical to this char index on ASCII names). -/
def rfindIdxUnderscore : List Char → Option Nat
  | [] => none
  | c :: rest =>
    match rfindIdxUnderscore rest with
    | some i => some (i + 1)
    | none => if c = '_' then some 0 else none

/-- Modelled from the spec's wording for the id-like cascade: the prefix
of a name up to (exclusive) its last underscore, when the name contains
one.  Used as the independent reference formulation against which the
`rfind`/`split_at`-based source code is compared. -/
def upToLastUnderscore : List Char → Option (List Char)
  | [] => none
  | c :: rest =>
    match upToLastUnderscore rest with
    | some p => some (c :: p)
    | none => if c = '_' then some [] else none

/-- From `importer.rs`, `get_id_like_column_from_columns` (lines
148-186), on character lists: use `id` if present; otherwise strip the
last underscore-suffix from the table name (Rust `rfind("_")` plus
`split_at`) and try `<prefix>_id`, once and then a second time; else
`None`. -/
def getIdLikeChars (table_name : List Char) (keys : List (List Char)) :
    Option (List Char) :=
  if ['i', 'd'] ∈ keys then some ['i', 'd']
  else
    match rfindIdxUnderscore table_name with
    | none => none
    | some i =>
      let t1 := table_name.take i
      if t1 ++ ['_', 'i', 'd'] ∈ keys then some (t1 ++ ['_', 'i', 'd'])
      else
        match rfindIdxUnderscore t1 with
        | none => none
        | some j =>
          let t2 := t1.take j
          if t2 ++ ['_', 'i', 'd'] ∈ keys then some (t2 ++ ['_', 'i', 'd'])
          else none

/-- String wrapper of `getIdLikeChars`, taking the key list of the row's
column map exactly as `process` passes `&columns`. -/
def get_id_like_column_from_columns (table_name : String)
    (keys : List String) : Option String :=
  (getIdLikeChars table_name.data (keys.map String.data)).map
    (fun l => String.mk l)

/-- Outcome of the id-resolution step of the non-volatile branch of the
load phase. -/
inductive RowIdStep where
  | panicked
  | markedFailed
  | resolved (c : String) (v : String)
deriving DecidableEq, Repr

/-- From `importer.rs`, `process` (non-volatile branch, lines 349-362):
resolve the id-like column of the row; a `None` resolution sets
`has_failed` and returns (`markedFailed`).  Otherwise the code runs
`columns.get(&id_like_column).unwrap().clone().unwrap()`: the first
`unwrap` panics when the column is absent from the map, the second when
its value is `None`, i.e. when the TSV field was the null marker
`\N`. -/
def loadRowIdPhase (table_name : String)
    (m : List (String × Option String)) : RowIdStep :=
  match get_id_like_column_from_columns table_name (mapKeys m) with
  | none => .markedFailed
  | some c =>
    match mapLookup c m with
    | none => .panicked
    | some none => .panicked
    | some (some v) => .resolved c v

/-- From `api_client.rs`, `download_files_for_dump` (lines 306-334),
inner loop for one artifact: walk the artifact's files in order; at the
first file whose save path already exists, skip the rest of the artifact
(the labelled `continue 'artifacts`); every file seen before that gets a
GET enqueued. -/
def downloadArtifactGets (onDisk : String → Bool) : List String → List String
  | [] => []
  | f :: rest =>
    if onDisk f then [] else f :: downloadArtifactGets onDisk rest

/-- The four data operations of the `ImportDatabaseAdapter` trait
(`db_client.rs`). -/
inductive DbOperation where
  | dropTable
  | createTable
  | dropRecord
  | insertRecord
deriving DecidableEq, Repr

/-- The two failure sites of every adapter method: acquiring a pooled
connection, and executing the statement. -/
inductive DbFailSite where
  | poolAcquire
  | statementExec
deriving DecidableEq, Repr

/-- From `db_client.rs`, `impl ImportDatabaseAdapter for
DatabaseClient<PostgresConnectionManager>`: the `ErrorKind` returned at
each failure site of each method (every site returns
`ErrorKind::PostgresErr`). -/
def postgresAdapterErrorKind (_op : DbOperation) (_site : DbFailSite) :
    ErrorKind :=
  .PostgresErr

/-- From `db_client.rs`, `impl ImportDatabaseAdapter for
DatabaseClient<MysqlConnectionManager>`: the `ErrorKind` returned at
each failure site of each method.  Every site returns
`ErrorKind::MysqlErr` except the pool-acquire failure of
`insert_record` (line 443), which returns `ErrorKind::PostgresErr`. -/
def mysqlAdapterErrorKind (op : DbOperation) (site : DbFailSite) :
    ErrorKind :=
  match op, site with
  | .insertRecord, .poolAcquire => .PostgresErr
  | _, _ => .MysqlErr

/-- From `main.rs` lines 177-237: the `is_all_volatile` argument passed
to `Importer::process`.  On the PostgreSQL path the code passes `true`
when `last_processed_schema != latest_schema.version` and the
`all_tables_volatile` setting otherwise; on the MySQL path it passes the
setting unconditionally, with no schema-version check. -/
def allVolatileArg (db : DatabaseType) (all_tables_volatile : Bool)
    (last_processed latest_version : String) : Bool :=
  match db with
  | .Psql =>
    if last_processed ≠ latest_version then true else all_tables_volatile
  | .Mysql => all_tables_volatile

/-- From `api_client.rs`, `DumpInList`: the fields the run controller's
loop reads. -/
structure DumpInList where
  dump_id : String
  finished : Bool
  schema_version : String
deriving DecidableEq, Repr

/-- External inputs consumed by the run controller for one dump: whether
`get_files_for_dump` succeeds, whether the file list is a historical
refresh, and whether `process()` returns `Ok` if invoked. -/
structure DumpEnv where
  files_ok : Bool
  is_historical : Bool
  import_ok : Bool
deriving DecidableEq, Repr

/-- The control-flow exit taken by the `main` loop body for one dump
(`main.rs` lines 94-239), in source order of the early returns. -/
inductive DumpOutcome where
  | okSkippedOnlyFinal
  | errPrevFailure
  | okUnfinished
  | okAlreadyProcessed
  | okOutOfDate
  | okFilesListFailed
  | okHistorical
  | okImported
  | errImported
deriving DecidableEq, Repr

/-- From `main.rs` line 60: `let has_errord = false;`.  The binding is
immutable and is never reassigned anywhere in `main`, so every read of
it yields `false`. -/
def has_errord : Bool := false

/-- Model of RocksDB `put`: later writes shadow earlier ones. -/
def ledgerPut (ledger : List (String × String)) (k v : String) :
    List (String × String) :=
  (k, v) :: ledger

/-- Model of RocksDB `get` (reads are assumed to succeed). -/
def ledgerGet (ledger : List (String × String)) (k : String) :
    Option String :=
  mapLookup k ledger

/-- From `main.rs`, the loop body of `main` for one dump, with the
branches in source order: only-final skip; previous-failure skip (which
writes nothing to the ledger); unfinished skip; already-`successful` /
`out-of-date` skip; schema-version mismatch (writes `out-of-date`);
file-list failure skip; historical-refresh skip (writes `successful`);
otherwise write `in_progress`, run the importer, and write `successful`
or `failure` per its result. -/
def processDump (hasErrord skip_historical only_final_skip : Bool)
    (latest_version : String) (ledger : List (String × String))
    (d : DumpInList) (env : DumpEnv) :
    List (String × String) × DumpOutcome :=
  let key := "dump_processed_" ++ d.dump_id
  if only_final_skip then (ledger, .okSkippedOnlyFinal)
  else if hasErrord then (ledger, .errPrevFailure)
  else if !d.finished then (ledger, .okUnfinished)
  else if ledgerGet ledger key = some "successful"
      ∨ ledgerGet ledger key = some "out-of-date" then
    (ledger, .okAlreadyProcessed)
  else if d.schema_version ≠ latest_version then
    (ledgerPut ledger key "out-of-date", .okOutOfDate)
  else if !env.files_ok then (ledger, .okFilesListFailed)
  else if env.is_historical && skip_historical then
    (ledgerPut ledger key "successful", .okHistorical)
  else
    let ledger1 := ledgerPut ledger key "in_progress"
    if env.import_ok then (ledgerPut ledger1 key "successful", .okImported)
    else (ledgerPut ledger1 key "failure", .errImported)

/-- From `main.rs`, the `dumps.into_iter().map(...)` loop: folds
`processDump` over the sorted dump list, tracking
`current_dumps_pos`, and — exactly as the source does — passing the
constant `has_errord` binding as the previous-failure flag on every
iteration. -/
def runDumps (skip_historical only_final : Bool) (latest_version : String) :
    Nat → Nat → List (String × String) → List (DumpInList × DumpEnv) →
    List (String × String) × List DumpOutcome
  | _, _, ledger, [] => (ledger, [])
  | pos, total, ledger, (d, env) :: rest =>
    let pos1 := pos + 1
    let only_final_skip := (pos1 != total) && only_final
    let r := processDump has_errord skip_historical only_final_skip
      latest_version ledger d env
    let r2 := runDumps skip_historical only_final latest_version
      pos1 total r.1 rest
    (r2.1, r.2 :: r2.2)

end CanvasDataLoader

namespace CanvasDataLoader

/-- Splitting the head comparison of `charListLt` into the strict and
the equal-head case. -/
theorem charListLt_cons_iff (a b : Char) (as bs : List Char) :
    charListLt (a :: as) (b :: bs) = true ↔
      a.toNat < b.toNat ∨ (a.toNat = b.toNat ∧ charListLt as bs = true) := by
  rw [charListLt]
  by_cases h1 : a.toNat < b.toNat
  · simp [h1]
  · by_cases h2 : b.toNat < a.toNat
    · simp [h1, h2]
      omega
    · have he : a.toNat = b.toNat := by omega
      simp [h1, h2, he]

/-- The key order of the `BTreeMap` model is transitive. -/
theorem charListLt_trans (a : List Char) : ∀ (b c : List Char),
    charListLt a b = true → charListLt b c = true →
    charListLt a c = true := by
  induction a with
  | nil =>
    intro b c hab hbc
    cases b with
    | nil => simp [charListLt] at hab
    | cons b1 bs =>
      cases c with
      | nil => simp [charListLt] at hbc
      | cons c1 cs => rfl
  | cons a1 as ih =>
    intro b c hab hbc
    cases b with
    | nil => simp [charListLt] at hab
    | cons b1 bs =>
      cases c with
      | nil => simp [charListLt] at hbc
      | cons c1 cs =>
        rw [charListLt_cons_iff] at hab hbc ⊢
        rcases hab with h | ⟨he, hr⟩
        · rcases hbc with h2 | ⟨he2, hr2⟩
          · exact Or.inl (by omega)
          · exact Or.inl (by omega)
        · rcases hbc with h2 | ⟨he2, hr2⟩
          · exact Or.inl (by omega)
          · exact Or.inr ⟨by omega, ih bs cs hr hr2⟩

/-- The key order of the `BTreeMap` model is linear: two distinct keys
compare strictly in one direction. -/
theorem charListLt_of_ne (a : List Char) : ∀ (b : List Char),
    charListLt a b = false → a ≠ b → charListLt b a = true := by
  induction a with
  | nil =>
    intro b hf hne
    cases b with
    | nil => exact absurd rfl hne
    | cons b1 bs => simp [charListLt] at hf
  | cons a1 as ih =>
    intro b hf hne
    cases b with
    | nil => rfl
    | cons b1 bs =>
      rw [charListLt] at hf
      rw [charListLt_cons_iff]
      by_cases h1 : a1.toNat < b1.toNat
      · rw [if_pos h1] at hf
        cases hf
      · by_cases h2 : b1.toNat < a1.toNat
        · exact Or.inl h2
        · have he : a1.toNat = b1.toNat := by omega
          have hchar : a1 = b1 := Char.eq_of_val_eq (UInt32.ext he)
          rw [if_neg h1, if_neg h2] at hf
          refine Or.inr ⟨by omega, ih bs hf ?_⟩
          intro hcontra
          exact hne (by rw [hchar, hcontra])

/-- `strLt` is transitive. -/
theorem strLt_trans (a b c : String) (h1 : strLt a b = true)
    (h2 : strLt b c = true) : strLt a c = true :=
  charListLt_trans a.data b.data c.data h1 h2

/-- Two distinct strings compare strictly in one direction. -/
theorem strLt_of_ne (a b : String) (hf : strLt a b = false) (hne : a ≠ b) :
    strLt b a = true := by
  refine charListLt_of_ne a.data b.data hf ?_
  intro h
  apply hne
  cases a
  cases b
  exact congrArg String.mk h

/-- Inserting into the map model adds `k` to the key set and keeps the
other keys. -/
theorem mem_mapKeys_mapInsert {A : Type} (k a : String) (v : A)
    (m : List (String × A)) :
    a ∈ mapKeys (mapInsert k v m) ↔ a = k ∨ a ∈ mapKeys m := by
  induction m with
  | nil => simp [mapInsert, mapKeys]
  | cons p rest ih =>
    obtain ⟨k1, v1⟩ := p
    by_cases h1 : strLt k k1 = true
    · simp [mapInsert, h1, mapKeys]
    · by_cases h2 : k = k1
      · subst h2
        simp [mapInsert, h1, mapKeys]
      · simp [mapInsert, h1, h2, mapKeys] at ih ⊢
        tauto

/-- Ordered insertion preserves sortedness of the key list, so maps
built by `mapInsert` iterate in ascending key order, as `BTreeMap`
does. -/
theorem sorted_mapKeys_mapInsert {A : Type} (k : String) (v : A)
    (m : List (String × A))
    (h : (mapKeys m).Sorted (fun a b => strLt a b = true)) :
    (mapKeys (mapInsert k v m)).Sorted (fun a b => strLt a b = true) := by
  induction m with
  | nil => simp [mapInsert, mapKeys]
  | cons p rest ih =>
    obtain ⟨k1, v1⟩ := p
    rw [show mapKeys ((k1, v1) :: rest) = k1 :: mapKeys rest from rfl,
      List.sorted_cons] at h
    obtain ⟨hhead, htail⟩ := h
    by_cases h1 : strLt k k1 = true
    · rw [show mapInsert k v ((k1, v1) :: rest) =
        (k, v) :: (k1, v1) :: rest by simp [mapInsert, h1]]
      rw [show mapKeys ((k, v) :: (k1, v1) :: rest) =
        k :: k1 :: mapKeys rest from rfl, List.sorted_cons]
      refine ⟨?_, ?_⟩
      · intro b hb
        rcases List.mem_cons.mp hb with hb1 | hb2
        · exact hb1 ▸ h1
        · exact strLt_trans k k1 b h1 (hhead b hb2)
      · rw [List.sorted_cons]
        exact ⟨hhead, htail⟩
    · by_cases h2 : k = k1
      · subst h2
        rw [show mapInsert k v ((k, v1) :: rest) = (k, v) :: rest by
          simp [mapInsert, h1]]
        rw [show mapKeys ((k, v) :: rest) = k :: mapKeys rest from rfl,
          List.sorted_cons]
        exact ⟨hhead, htail⟩
      · rw [show mapInsert k v ((k1, v1) :: rest) =
          (k1, v1) :: mapInsert k v rest by simp [mapInsert, h1, h2]]
        rw [show mapKeys ((k1, v1) :: mapInsert k v rest) =
          k1 :: mapKeys (mapInsert k v rest) from rfl, List.sorted_cons]
        refine ⟨?_, ih htail⟩
        intro b hb
        rcases (mem_mapKeys_mapInsert k b v rest).mp hb with hb1 | hb2
        · rw [hb1]
          exact strLt_of_ne k k1 (by simpa using h1) h2
        · exact hhead b hb2

/-- Looking up the just-inserted key yields the just-inserted value. -/
theorem mapLookup_mapInsert_self {A : Type} (k : String) (v : A)
    (m : List (String × A)) : mapLookup k (mapInsert k v m) = some v := by
  induction m with
  | nil => simp [mapInsert, mapLookup]
  | cons p rest ih =>
    obtain ⟨k1, v1⟩ := p
    by_cases h1 : strLt k k1 = true
    · simp [mapInsert, h1, mapLookup]
    · by_cases h2 : k = k1
      · subst h2
        simp [mapInsert, h1, mapLookup]
      · simp [mapInsert, h1, h2, mapLookup, ih]

/-- Insertion of one key does not change the lookup of another. -/
theorem mapLookup_mapInsert_ne {A : Type} (a k : String) (v : A)
    (m : List (String × A)) (h : a ≠ k) :
    mapLookup a (mapInsert k v m) = mapLookup a m := by
  induction m with
  | nil => simp [mapInsert, mapLookup, h]
  | cons p rest ih =>
    obtain ⟨k1, v1⟩ := p
    by_cases h1 : strLt k k1 = true
    · simp [mapInsert, h1, mapLookup, h]
    · by_cases h2 : k = k1
      · subst h2
        simp [mapInsert, h1, mapLookup, h]
      · simp [mapInsert, h1, h2, mapLookup, ih]

/-- Key membership after folding `mapInsert` over a pair list (the shape
of the row-map construction in `process`). -/
theorem mem_mapKeys_foldl_mapInsert {A B : Type} (f : B → A)
    (pairs : List (String × B)) (m : List (String × A)) (a : String) :
    a ∈ mapKeys (pairs.foldl (fun acc p => mapInsert p.1 (f p.2) acc) m) ↔
      a ∈ pairs.map Prod.fst ∨ a ∈ mapKeys m := by
  induction pairs generalizing m with
  | nil => simp
  | cons p rest ih =>
    rw [List.foldl_cons, ih, mem_mapKeys_mapInsert]
    simp
    tauto

/-- Sortedness of the key list after folding `mapInsert`. -/
theorem sorted_mapKeys_foldl_mapInsert {A B : Type} (f : B → A)
    (pairs : List (String × B)) (m : List (String × A))
    (h : (mapKeys m).Sorted (fun a b => strLt a b = true)) :
    (mapKeys (pairs.foldl (fun acc p => mapInsert p.1 (f p.2) acc) m)).Sorted
      (fun a b => strLt a b = true) := by
  induction pairs generalizing m with
  | nil => exact h
  | cons p rest ih => exact ih _ (sorted_mapKeys_mapInsert _ _ _ h)

/-- Folding `mapInsert` over pairs whose keys avoid `a` leaves the
lookup of `a` unchanged. -/
theorem mapLookup_foldl_mapInsert_not_mem {A B : Type} (f : B → A)
    (pairs : List (String × B)) (m : List (String × A)) (a : String)
    (h : a ∉ pairs.map Prod.fst) :
    mapLookup a (pairs.foldl (fun acc p => mapInsert p.1 (f p.2) acc) m) =
      mapLookup a m := by
  induction pairs generalizing m with
  | nil => rfl
  | cons p rest ih =>
    simp only [List.map_cons, List.mem_cons, not_or] at h
    rw [List.foldl_cons, ih _ h.2, mapLookup_mapInsert_ne _ _ _ _ h.1]

/-- With duplicate-free keys, folding `mapInsert` binds each key of the
pair list to (the image of) its own value. -/
theorem mapLookup_foldl_mapInsert_mem {A B : Type} (f : B → A)
    (pairs : List (String × B)) (m : List (String × A)) (k : String) (v : B)
    (hnd : (pairs.map Prod.fst).Nodup) (hmem : (k, v) ∈ pairs) :
    mapLookup k (pairs.foldl (fun acc p => mapInsert p.1 (f p.2) acc) m) =
      some (f v) := by
  induction pairs generalizing m with
  | nil => cases hmem
  | cons p rest ih =>
    simp only [List.map_cons, List.nodup_cons] at hnd
    obtain ⟨hnotin, hnd2⟩ := hnd
    rcases List.mem_cons.mp hmem with heq | hmem2
    · subst heq
      rw [List.foldl_cons, mapLookup_foldl_mapInsert_not_mem f rest _ _ hnotin]
      exact mapLookup_mapInsert_self _ _ _
    · exact ih _ hnd2 hmem2

/-- The ordered name list returned by `tableInfoAux` is the accumulator
followed by the names of the remaining columns, in their schema order. -/
theorem tableInfoAux_names (db : DatabaseType) (cols : List ColumnDefinition)
    (vec : List String) (m : List (String × String))
    (names : List String) (types : List (String × String))
    (h : tableInfoAux db cols vec m = some (names, types)) :
    names = vec ++ cols.map ColumnDefinition.name := by
  induction cols generalizing vec m with
  | nil =>
    simp [tableInfoAux] at h
    simp [h.1]
  | cons c rest ih =>
    rw [tableInfoAux] at h
    rcases hc : convert_type_for_db c.db_type db with e | t
    · rw [hc] at h
      cases h
    · rw [hc] at h
      have := ih _ _ h
      simpa using this

/-- Claim C9: every recognised vendor type maps as the source `match`
dictates and every other string fails with `InvalidTypeToConvert`.  The
claim's assertion that `enum` maps to `LONGTEXT` on MySQL is false (see
the counterexample); the code maps `enum` to `TEXT` on both backends.
This theorem states the full corrected mapping. -/
theorem convert_type_full_mapping :
    (convert_type_for_db "bigint" .Psql = .ok "BIGINT"
      ∧ convert_type_for_db "bigint" .Mysql = .ok "BIGINT"
      ∧ convert_type_for_db "boolean" .Psql = .ok "BOOLEAN"
      ∧ convert_type_for_db "boolean" .Mysql = .ok "VARCHAR(10)"
      ∧ convert_type_for_db "double precision" .Psql = .ok "double precision"
      ∧ convert_type_for_db "double precision" .Mysql = .ok "FLOAT(17)"
      ∧ convert_type_for_db "enum" .Psql = .ok "TEXT"
      ∧ convert_type_for_db "enum" .Mysql = .ok "TEXT"
      ∧ convert_type_for_db "int" .Psql = .ok "INT"
      ∧ convert_type_for_db "int" .Mysql = .ok "INT"
      ∧ convert_type_for_db "integer" .Psql = .ok "INT"
      ∧ convert_type_for_db "integer" .Mysql = .ok "INT"
      ∧ convert_type_for_db "text" .Psql = .ok "TEXT"
      ∧ convert_type_for_db "text" .Mysql = .ok "LONGTEXT"
      ∧ convert_type_for_db "timestamp" .Psql = .ok "TIMESTAMP"
      ∧ convert_type_for_db "timestamp" .Mysql = .ok "DATETIME"
      ∧ convert_type_for_db "date" .Psql = .ok "DATE"
      ∧ convert_type_for_db "date" .Mysql = .ok "DATE"
      ∧ convert_type_for_db "varchar" .Psql = .ok "TEXT"
      ∧ convert_type_for_db "varchar" .Mysql = .ok "LONGTEXT"
      ∧ convert_type_for_db "guid" .Psql = .ok "TEXT"
      ∧ convert_type_for_db "guid" .Mysql = .ok "LONGTEXT"
      ∧ convert_type_for_db "datetime" .Psql = .ok "TIMESTAMP"
      ∧ convert_type_for_db "datetime" .Mysql = .ok "DATETIME")
    ∧ ∀ (s : String) (db : DatabaseType), s ∉ recognizedVendorTypes →
        convert_type_for_db s db = .error (.InvalidTypeToConvert s) := by
  constructor
  · exact ⟨rfl, rfl, rfl, rfl, rfl, rfl, rfl, rfl, rfl, rfl, rfl, rfl,
      rfl, rfl, rfl, rfl, rfl, rfl, rfl, rfl, rfl, rfl, rfl, rfl⟩
  · intro s db h
    simp only [recognizedVendorTypes, List.mem_cons, List.not_mem_nil,
      or_false, not_or] at h
    obtain ⟨h1, h2, h3, h4, h5, h6, h7, h8, h9, h10, h11, h12⟩ := h
    simp [convert_type_for_db, h1, h2, h3, h4, h5, h6, h7, h8, h9,
      h10, h11, h12]

/-- Witness for `convert_type_full_mapping`: the unknown vendor type
`"blob"` fails with `InvalidTypeToConvert "blob"`. -/
theorem convert_type_full_mapping_witness :
    convert_type_for_db "blob" .Mysql = .error (.InvalidTypeToConvert "blob") :=
  convert_type_full_mapping.2 "blob" .Mysql (by decide)

/-- Counterexample to claim C9 as stated: the code maps `enum` on MySQL
to `TEXT`, not to `LONGTEXT` as the spec's type table asserts. -/
theorem convert_type_enum_mysql_is_text :
    convert_type_for_db "enum" .Mysql = .ok "TEXT"
      ∧ convert_type_for_db "enum" .Mysql ≠ .ok "LONGTEXT" := by
  refine ⟨rfl, fun h => ?_⟩
  rw [show convert_type_for_db "enum" .Mysql = .ok "TEXT" from rfl] at h
  injection h with h2
  exact absurd h2 (by decide)

/-- Claim C1, corrected: for every row imported, the generated `INSERT`
lists its columns in the `BTreeMap` iteration order — ascending
lexicographic order of column name — not in the schema's declared column
order (see the counterexample `insert_order_not_schema_order`).  The key
set of the emitted column list is exactly the schema's column-name set,
and each emitted value is the parsed TSV field of its own column (the
field aligned positionally with that column in the schema order). -/
theorem insert_columns_sorted_by_name (db : DatabaseType)
    (td : TableDefinition) (names : List String)
    (types : List (String × String)) (vals : List String)
    (m : List (String × Option String))
    (hinfo : get_table_info_from_def db td = some (names, types))
    (hnd : names.Nodup)
    (hm : buildRowMap names vals = some m) :
    names = td.columns.map ColumnDefinition.name
    ∧ (insertColumnOrder m).Sorted (fun a b => strLt a b = true)
    ∧ (∀ k, k ∈ insertColumnOrder m ↔ k ∈ names)
    ∧ ∀ p ∈ names.zip vals, mapLookup p.1 m = some (parseField p.2) := by
  have hnames := tableInfoAux_names db td.columns [] [] names types hinfo
  rw [buildRowMap] at hm
  by_cases hlen : names.length ≤ vals.length
  · rw [if_pos hlen] at hm
    injection hm with hm
    subst hm
    have hfst : (names.zip vals).map Prod.fst = names :=
      List.map_fst_zip names vals hlen
    refine ⟨by simpa using hnames, ?_, ?_, ?_⟩
    · exact sorted_mapKeys_foldl_mapInsert parseField (names.zip vals) []
        (by simp [mapKeys])
    · intro k
      rw [show insertColumnOrder ((names.zip vals).foldl
        (fun m p => mapInsert p.1 (parseField p.2) m) []) = mapKeys
        ((names.zip vals).foldl
          (fun m p => mapInsert p.1 (parseField p.2) m) []) from rfl]
      rw [mem_mapKeys_foldl_mapInsert parseField (names.zip vals) [] k, hfst]
      simp [mapKeys]
    · intro p hp
      have hnd2 : ((names.zip vals).map Prod.fst).Nodup := by
        rw [hfst]
        exact hnd
      exact mapLookup_foldl_mapInsert_mem parseField (names.zip vals) []
        p.1 p.2 hnd2 hp
  · rw [if_neg hlen] at hm
    cases hm

/-- Witness for `insert_columns_sorted_by_name` at a concrete table
whose schema lists `b` before `a`: the value emitted for column `b` is
the first TSV field, the one aligned with `b` in the schema order. -/
theorem insert_columns_sorted_by_name_witness :
    mapLookup "b" [("a", some "2"), ("b", some "1")] = some (parseField "1") :=
  (insert_columns_sorted_by_name .Psql
    ⟨"t", [⟨"int", "b"⟩, ⟨"int", "a"⟩]⟩ ["b", "a"]
    [("a", "INT"), ("b", "INT")] ["1", "2"]
    [("a", some "2"), ("b", some "1")]
    (by decide) (by decide) (by decide)).2.2.2 ("b", "1") (by decide)

/-- Counterexample to claim C1 as stated: for a table whose schema
declares its columns in the order `[b, a]`, the row map built by
`process` iterates `[a, b]`, so `insert_record` emits the columns in
sorted order `[a, b]`, not in the schema order `[b, a]`. -/
theorem insert_order_not_schema_order :
    buildRowMap ["b", "a"] ["1", "2"] = some [("a", some "2"), ("b", some "1")]
    ∧ insertColumnOrder [("a", some "2"), ("b", some "1")] ≠ ["b", "a"] := by
  decide

/-- Claim C5, amended: the import loop unwraps `FileNameSplit::new`, so
a downloaded filename panics the worker — it is not ignored — exactly
when it lacks the `<table>-<shard>-<hash>.<ext>` shape: when it does not
have exactly three dash-separated segments (the `unwrap` of the `None`
returned by `FileNameSplit::new` panics) or when its third segment has
no dot (`part_with_file_extension[1]` panics inside
`FileNameSplit::new`). -/
theorem entry_split_panics_iff (s : String) :
    processEntrySplit s = .panicked ↔ wellFormedDumpFileName s = false := by
  unfold processEntrySplit fileNameSplitNew wellFormedDumpFileName
  rcases hs : splitOnChar '-' s.data with _ | ⟨a, l1⟩
  · simp
  · rcases l1 with _ | ⟨b, l2⟩
    · simp
    · rcases l2 with _ | ⟨c, l3⟩
      · simp
      · rcases l3 with _ | ⟨d, l4⟩
        · rcases hc : splitOnChar '.' c with _ | ⟨h1, l5⟩
          · simp [hc]
          · rcases l5 with _ | ⟨e, l6⟩
            · simp [hc]
            · simp [hc]
        · simp

/-- Counterexample to claim C5 as stated: the filename `foo.gz` (a
`*.gz` glob match with no dash) is not ignored; `FileNameSplit::new`
returns `None` and the `unwrap` in `process` panics the run. -/
theorem malformed_filename_panics :
    processEntrySplit "foo.gz" = .panicked
    ∧ processEntrySplit "a-b-c" = .panicked := by
  decide

/-- The index-arithmetic form of the source (`rfind("_")` then
`split_at`, i.e. `take`) computes the prefix of the name up to its last
underscore, exclusive. -/
theorem rfind_take_eq_upToLastUnderscore (l : List Char) :
    (rfindIdxUnderscore l).map (fun i => l.take i) = upToLastUnderscore l := by
  induction l with
  | nil => rfl
  | cons c rest ih =>
    cases h : rfindIdxUnderscore rest with
    | none =>
      have e : upToLastUnderscore rest = none := by
        rw [← ih, h]
        rfl
      by_cases hc : c = '_' <;>
        simp [rfindIdxUnderscore, upToLastUnderscore, h, e, hc]
    | some i =>
      have e : upToLastUnderscore rest = some (rest.take i) := by
        rw [← ih, h]
        rfl
      simp [rfindIdxUnderscore, upToLastUnderscore, h, e]

/-- Claim C6: the id-like resolution follows exactly the cascade the
spec describes — `id` if present, else `<t1>_id` where `t1` is the
table name up to (exclusive) its last underscore, else `<t2>_id` where
`t2` is `t1` up to its last underscore, else no key — and when no key is
found, the load phase sets the has-failed flag (the dump is marked
failed) rather than inserting. -/
theorem id_like_resolution_cascade :
    (∀ (t : List Char) (keys : List (List Char)),
      getIdLikeChars t keys =
        if ['i', 'd'] ∈ keys then some ['i', 'd']
        else
          match upToLastUnderscore t with
          | none => none
          | some t1 =>
            if t1 ++ ['_', 'i', 'd'] ∈ keys then some (t1 ++ ['_', 'i', 'd'])
            else
              match upToLastUnderscore t1 with
              | none => none
              | some t2 =>
                if t2 ++ ['_', 'i', 'd'] ∈ keys then
                  some (t2 ++ ['_', 'i', 'd'])
                else none)
    ∧ ∀ (tn : String) (m : List (String × Option String)),
        get_id_like_column_from_columns tn (mapKeys m) = none →
        loadRowIdPhase tn m = .markedFailed := by
  constructor
  · intro t keys
    by_cases hid : ['i', 'd'] ∈ keys
    · simp [getIdLikeChars, hid]
    · cases h1 : rfindIdxUnderscore t with
      | none =>
        have e1 : upToLastUnderscore t = none := by
          rw [← rfind_take_eq_upToLastUnderscore, h1]
          rfl
        simp [getIdLikeChars, hid, h1, e1]
      | some i =>
        have e1 : upToLastUnderscore t = some (t.take i) := by
          rw [← rfind_take_eq_upToLastUnderscore, h1]
          rfl
        by_cases hk1 : t.take i ++ ['_', 'i', 'd'] ∈ keys
        · simp [getIdLikeChars, hid, h1, e1, hk1]
        · cases h2 : rfindIdxUnderscore (t.take i) with
          | none =>
            have e2 : upToLastUnderscore (t.take i) = none := by
              rw [← rfind_take_eq_upToLastUnderscore, h2]
              rfl
            simp [getIdLikeChars, hid, h1, e1, hk1, h2, e2]
          | some j =>
            have e2 : upToLastUnderscore (t.take i) =
                some ((t.take i).take j) := by
              rw [← rfind_take_eq_upToLastUnderscore, h2]
              rfl
            simp [getIdLikeChars, hid, h1, e1, hk1, h2, e2]
  · intro tn m h
    simp [loadRowIdPhase, h]

/-- Witness for `id_like_resolution_cascade`: a table `foo` whose row
has only a column `bar` resolves no id-like column, and the load phase
marks the dump failed. -/
theorem id_like_resolution_cascade_witness :
    loadRowIdPhase "foo" [("bar", some "1")] = .markedFailed :=
  id_like_resolution_cascade.2 "foo" [("bar", some "1")] (by decide)

/-- Claim C10: for a non-volatile table row whose resolved id-like
column carries the null marker `\N` (parsed to `None` in the column
map), the load phase panics on the second `unwrap` instead of setting
the has-failed flag. -/
theorem null_id_value_panics (tn : String) (names vals : List String)
    (m : List (String × Option String)) (c : String)
    (hnd : names.Nodup)
    (hm : buildRowMap names vals = some m)
    (hres : get_id_like_column_from_columns tn (mapKeys m) = some c)
    (hfield : (c, "\\N") ∈ names.zip vals) :
    loadRowIdPhase tn m = .panicked := by
  rw [buildRowMap] at hm
  by_cases hlen : names.length ≤ vals.length
  · rw [if_pos hlen] at hm
    injection hm with hm
    subst hm
    have hfst : (names.zip vals).map Prod.fst = names :=
      List.map_fst_zip names vals hlen
    have hnd2 : ((names.zip vals).map Prod.fst).Nodup := by
      rw [hfst]
      exact hnd
    have hl := mapLookup_foldl_mapInsert_mem parseField (names.zip vals) []
      c "\\N" hnd2 hfield
    rw [show parseField "\\N" = none from rfl] at hl
    simp [loadRowIdPhase, hres, hl]
  · rw [if_neg hlen] at hm
    cases hm

/-- Witness for `null_id_value_panics`: table `quiz_fact`, columns
`[quiz_id, points]`, TSV line `\N<tab>3`.  The resolved id column
`quiz_id` holds `None`, and the row step is a panic. -/
theorem null_id_value_panics_witness :
    loadRowIdPhase "quiz_fact" [("points", some "3"), ("quiz_id", none)] =
      .panicked :=
  null_id_value_panics "quiz_fact" ["quiz_id", "points"] ["\\N", "3"]
    [("points", some "3"), ("quiz_id", none)] "quiz_id"
    (by decide) (by decide) (by decide) (by decide)

/-- Claim C7, amended: for each artifact the downloader walks the files
in order and stops at the first file already present on disk, enqueueing
GETs for exactly the files before it.  Hence the whole artifact is
skipped when the first file exists, but when a later file exists the
earlier files still get GETs and the remainder is skipped — not, as the
claim states, GETs for every file whenever the first is absent. -/
theorem download_gets_stop_at_first_on_disk (onDisk : String → Bool)
    (files : List String) :
    downloadArtifactGets onDisk files =
      files.takeWhile (fun f => !(onDisk f)) := by
  induction files with
  | nil => rfl
  | cons f rest ih =>
    rw [downloadArtifactGets, List.takeWhile_cons]
    by_cases h : onDisk f <;> simp [h, ih]

/-- Counterexample to claim C7 as stated: an artifact with files
`[a, b, c]` where only `b` is on disk.  The first file `a` is absent, so
the claim requires GETs for all three files, but the code enqueues a GET
only for `a` and then skips the rest of the artifact. -/
theorem download_gets_partial_artifact :
    (fun f => f == "b") "a" = false
    ∧ downloadArtifactGets (fun f => f == "b") ["a", "b", "c"] = ["a"]
    ∧ downloadArtifactGets (fun f => f == "b") ["a", "b", "c"] ≠
        ["a", "b", "c"] := by
  decide

/-- Claim C8 fails on the code: the MySQL adapter's `insert_record`
returns `ErrorKind::PostgresErr` when it fails to acquire a pool
connection (`db_client.rs` line 443), while every other failure site of
the MySQL adapter returns `ErrorKind::MysqlErr` and every PostgreSQL
site returns `ErrorKind::PostgresErr`. -/
theorem mysql_insert_pool_error_is_postgres :
    mysqlAdapterErrorKind .insertRecord .poolAcquire = .PostgresErr
    ∧ (∀ (site : DbFailSite),
        mysqlAdapterErrorKind .dropTable site = .MysqlErr
        ∧ mysqlAdapterErrorKind .createTable site = .MysqlErr
        ∧ mysqlAdapterErrorKind .dropRecord site = .MysqlErr)
    ∧ mysqlAdapterErrorKind .insertRecord .statementExec = .MysqlErr
    ∧ ∀ (op : DbOperation) (site : DbFailSite),
        postgresAdapterErrorKind op site = .PostgresErr := by
  refine ⟨rfl, fun site => ?_, rfl, fun op site => rfl⟩
  cases site <;> exact ⟨rfl, rfl, rfl⟩

/-- Claim C4, corrected: only the PostgreSQL path passes
`all_tables_volatile || (last_version_processed != latest.version)` to
`process`; the MySQL path passes the configured setting unconditionally,
so a schema-version change does not force `all_volatile` there. -/
theorem all_volatile_disjunction_per_backend (s : Bool) (lp lv : String) :
    allVolatileArg .Psql s lp lv = (s || !(lp == lv))
    ∧ allVolatileArg .Mysql s lp lv = s := by
  refine ⟨?_, rfl⟩
  by_cases h : lp = lv
  · simp [allVolatileArg, h]
  · simp [allVolatileArg, h]

/-- Counterexample to claim C4 as stated: on the MySQL backend, with the
setting off and a schema-version change (`v1` to `v2`), the code passes
`false` to `process` where the claim requires `true`. -/
theorem mysql_schema_change_not_volatile :
    allVolatileArg .Mysql false "v1" "v2" = false
    ∧ (false || !("v1" == "v2")) = true := by
  decide

/-- Claim C3 fails on the code: `has_errord` is an immutable `false`
binding, so the previous-failure skip can never fire.  In a run with two
dumps where the first import fails, the second dump is imported normally
and its ledger entry is written `successful`, not skipped with
`failure`. -/
theorem failed_dump_does_not_skip_subsequent :
    has_errord = false
    ∧ (runDumps false false "v1" 0 2 []
        [(⟨"d1", true, "v1"⟩, ⟨true, false, false⟩),
         (⟨"d2", true, "v1"⟩, ⟨true, false, true⟩)]).2
        = [.errImported, .okImported]
    ∧ ledgerGet (runDumps false false "v1" 0 2 []
        [(⟨"d1", true, "v1"⟩, ⟨true, false, false⟩),
         (⟨"d2", true, "v1"⟩, ⟨true, false, true⟩)]).1 "dump_processed_d1"
        = some "failure"
    ∧ ledgerGet (runDumps false false "v1" 0 2 []
        [(⟨"d1", true, "v1"⟩, ⟨true, false, false⟩),
         (⟨"d2", true, "v1"⟩, ⟨true, false, true⟩)]).1 "dump_processed_d2"
        = some "successful" := by
  decide

/-- Claim C2 fails on the code: the drop phase keeps no record of
already-dropped tables (despite the comment announcing one), so a
volatile table sharded across several files is dropped once per file.
Here the volatile table `requests`, sharded into two files, is passed to
`drop_table` twice in one run. -/
theorem volatile_sharded_table_dropped_twice :
    dropPhaseDrops false ["requests", "requests"] = ["requests", "requests"]
    ∧ (dropPhaseDrops false ["requests", "requests"]).count "requests" = 2 := by
  decide

end CanvasDataLoader
